import Mathlib

/-!
Shallow embedding of the task-scheduling and approval core of the
monopoly-polymarket-agent repository, together with proofs of the claimed
properties.  The scheduler (`TradingHub` in agents/core/hub.py), the
session/task model (agents/core/session.py) and the approval state machine
(`ApprovalManager` in agents/core/approvals.py) are translated into
executable Lean definitions; external effects (the reasoning-engine call,
tool execution, wall-clock time, the event loop) are passed in as explicit
parameters so that the control flow of the source is preserved.
-/

namespace PolyAgent

/-! ## Association-list helpers (model of Python dict: insertion ordered,
assignment overwrites in place, pop removes). -/

/-- Lookup of a key in an association list (Python `d.get(k)`). -/
def alist_lookup {α : Type} (k : String) : List (String × α) → Option α
  | [] => none
  | (k', v) :: rest => if k' = k then some v else alist_lookup k rest

/-- Assignment `d[k] = v`: overwrite in place when the key exists, append
otherwise. -/
def alist_insert {α : Type} (k : String) (v : α) : List (String × α) → List (String × α)
  | [] => [(k, v)]
  | (k', v') :: rest =>
    if k' = k then (k, v) :: rest else (k', v') :: alist_insert k v rest

/-- Removal `d.pop(k, None)`. -/
def alist_remove {α : Type} (k : String) : List (String × α) → List (String × α)
  | [] => []
  | (k', v') :: rest =>
    if k' = k then rest else (k', v') :: alist_remove k rest

/-- Membership test `k in d`. -/
def alist_contains {α : Type} (k : String) (l : List (String × α)) : Bool :=
  (alist_lookup k l).isSome

/-! ## Set-of-strings helpers (model of Python `set`). -/

/-- Model of `s.add(x)`. -/
def set_add (x : String) (l : List String) : List String :=
  if x ∈ l then l else l ++ [x]

/-- Model of `s.discard(x)`: removes the element if present (a set holds no
duplicates, so removing all list occurrences models set removal). -/
def set_discard (x : String) (l : List String) : List String :=
  l.filter (fun y => y ≠ x)

/-! ## Lane / Task / Session model (agents/core/session.py). -/

/-- Task execution lanes (`class Lane(Enum)`). -/
inductive Lane where
  | MAIN
  | RESEARCH
  | MONITOR
  | CRON
deriving DecidableEq, Repr

/-- Total map from lanes, used for the per-lane queues and active sets. -/
structure LaneMap (α : Type) where
  main : α
  research : α
  monitor : α
  cron : α
deriving Repr

/-- Read the entry of one lane. -/
def LaneMap.get {α : Type} (m : LaneMap α) : Lane → α
  | .MAIN => m.main
  | .RESEARCH => m.research
  | .MONITOR => m.monitor
  | .CRON => m.cron

/-- Replace the entry of one lane. -/
def LaneMap.set {α : Type} (m : LaneMap α) : Lane → α → LaneMap α
  | .MAIN, v => { m with main := v }
  | .RESEARCH, v => { m with research := v }
  | .MONITOR, v => { m with monitor := v }
  | .CRON, v => { m with cron := v }

/-- Source `TradingHub.LANE_LIMITS`: fixed per-lane concurrency ceilings. -/
def LANE_LIMITS : Lane → Nat
  | .MAIN => 1
  | .RESEARCH => 3
  | .MONITOR => 2
  | .CRON => 1

/-- Source `@dataclass Task` (agents/core/session.py).  Timestamps are rationals
standing for the float seconds of `time.time()`; the opaque `context` map
is modelled as a string-to-string association list (only its
`agent_type` entry is ever read by the core). -/
structure Task where
  id : String
  lane : Lane
  prompt : String
  tools : List String
  context : List (String × String)
  priority : Int
  session_id : Option String
  created_at : ℚ
deriving DecidableEq, Repr

/-- Source `@dataclass Session` (agents/core/session.py); messages are
(role, content) pairs. -/
structure Session where
  id : String
  agent_type : String
  messages : List (String × String)
  created_at : ℚ
  updated_at : ℚ
deriving DecidableEq, Repr

/-- Source `Session.add_message`. -/
def Session.add_message (s : Session) (role content : String) (now : ℚ) : Session :=
  { s with messages := s.messages ++ [(role, content)], updated_at := now }

/-! ## Tool-use loop model (TradingHub._claude_tool_use_loop).

The reasoning engine is external: its response at each round is supplied
as a function from the iteration index to a list of content blocks. -/

/-- One content block of an engine response: plain text or a tool
invocation. -/
inductive Block where
  | text (s : String)
  | tool_use (id name input : String)
deriving DecidableEq, Repr

/-- Whether a response contains at least one tool invocation
(`has_tool_use` in the source loop). -/
def has_tool_use (blocks : List Block) : Bool :=
  blocks.any (fun b => match b with | .tool_use _ _ _ => true | .text _ => false)

/-- Concatenation of the text blocks of a response (the loop's
`text_content` accumulation). -/
def extract_text (blocks : List Block) : String :=
  blocks.foldl (fun acc b => match b with | .text s => acc ++ s | .tool_use _ _ _ => acc) ""

/-- Result dictionary returned by `_claude_tool_use_loop`: on success
`{success: True, response, iterations, session_id}`, on iteration
exhaustion `{success: False, error, iterations, session_id}`. -/
structure LoopResult where
  success : Bool
  response : Option String
  error : Option String
  iterations : Nat
  session_id : String
deriving DecidableEq, Repr

/-- Body of the `for iteration in range(max_iterations)` loop of
`_claude_tool_use_loop`, at iteration `i` with `fuel` rounds of the
range left:  call the engine; if the response has no tool use return the
success dictionary with `iterations = i + 1`; otherwise execute the
tools (external, absorbed into `respond`) and continue; when the range
is exhausted (`fuel = 0`) return the max-iterations failure
dictionary. -/
def tool_use_loop_go (respond : Nat → List Block) (sid : String)
    (max_iterations : Nat) : Nat → Nat → LoopResult
  | _, 0 =>
    { success := false, response := none,
      error := some "Max tool use iterations reached",
      iterations := max_iterations, session_id := sid }
  | i, fuel + 1 =>
    let blocks := respond i
    if has_tool_use blocks then
      tool_use_loop_go respond sid max_iterations (i + 1) fuel
    else
      { success := true, response := some (extract_text blocks), error := none,
        iterations := i + 1, session_id := sid }

/-- Source `TradingHub._claude_tool_use_loop` (default `max_iterations = 10`). -/
def claude_tool_use_loop (respond : Nat → List Block) (sid : String)
    (max_iterations : Nat := 10) : LoopResult :=
  tool_use_loop_go respond sid max_iterations 0 max_iterations

/-! ## Hub state (TradingHub.__init__). -/

/-- A stored task result: the loop's result dictionary on the success
path, or the captured exception (its message) on the failure path. -/
inductive TaskResultVal where
  | ok (r : LoopResult)
  | exn (msg : String)
deriving DecidableEq, Repr

/-- The `self.stats` counters of the hub. -/
structure HubStats where
  tasks_enqueued : Nat
  tasks_completed : Nat
  tasks_failed : Nat
  sessions_created : Nat
  sessions_cleaned : Nat
  results_cleaned : Nat
deriving DecidableEq, Repr

/-- Mutable state of a `TradingHub` instance. -/
structure HubState where
  sessions : List (String × Session)
  lanes : LaneMap (List Task)
  active_tasks : LaneMap (List String)
  task_results : List (String × TaskResultVal)
  task_result_timestamps : List (String × ℚ)
  running : Bool
  stats : HubStats
deriving Repr

/-- Freshly constructed hub (`TradingHub.__init__`). -/
def init_hub : HubState :=
  { sessions := []
    lanes := ⟨[], [], [], []⟩
    active_tasks := ⟨[], [], [], []⟩
    task_results := []
    task_result_timestamps := []
    running := false
    stats := ⟨0, 0, 0, 0, 0, 0⟩ }

/-- Source `TradingHub._create_session`. -/
def create_session (s : HubState) (session_id agent_type : String) (now : ℚ) : HubState :=
  let session : Session :=
    { id := session_id, agent_type := agent_type, messages := []
      created_at := now, updated_at := now }
  { s with sessions := alist_insert session_id session s.sessions
           stats := { s.stats with sessions_created := s.stats.sessions_created + 1 } }

/-- Python truthiness of an optional string (`if task.session_id:`),
false for `None` and for the empty string. -/
def opt_str_truthy : Option String → Bool
  | none => false
  | some s => !s.isEmpty

/-! ## Enqueue (TradingHub.enqueue). -/

/-- The insertion-sort step of `enqueue`: walk the lane queue and insert
the task before the first queued task of strictly smaller priority, else
append at the end. -/
def insert_by_priority (task : Task) : List Task → List Task
  | [] => [task]
  | queued :: rest =>
    if task.priority > queued.priority then task :: queued :: rest
    else queued :: insert_by_priority task rest

/-- Source `TradingHub.enqueue`: lazily create the referenced session, insert
the task into its lane's queue sorted by priority, bump
`tasks_enqueued`. -/
def enqueue (s : HubState) (task : Task) (now : ℚ) : HubState :=
  let s :=
    match task.session_id with
    | some sid =>
      if !sid.isEmpty && !alist_contains sid s.sessions then
        create_session s sid ((alist_lookup "agent_type" task.context).getD "task") now
      else s
    | none => s
  let q := insert_by_priority task (s.lanes.get task.lane)
  { s with lanes := s.lanes.set task.lane q
           stats := { s.stats with tasks_enqueued := s.stats.tasks_enqueued + 1 } }

/-- Repeated enqueueing into one lane's queue starting from a given
queue contents (used to state the ordering claims). -/
def enqueue_seq (ts : List Task) (q : List Task) : List Task :=
  ts.foldl (fun acc t => insert_by_priority t acc) q

/-! ## Dispatch (TradingHub._process_lane). -/

/-- The `while len(active) < limit and lane_queue:` loop of
`_process_lane`: pop the head, record its id in the active set, and
collect it in the list of spawned executions.  Returns the new active
set, the remaining queue und the spawned tasks in pop order. -/
def process_lane_go (active : List String) (limit : Nat) :
    List Task → List Task → List String × List Task × List Task
  | [], spawned => (active, [], spawned)
  | task :: rest, spawned =>
    if active.length < limit then
      process_lane_go (set_add task.id active) limit rest (spawned ++ [task])
    else (active, task :: rest, spawned)

/-- Source `TradingHub._process_lane`: start queued tasks of one lane while the
lane is under its concurrency limit.  The popped tasks are returned as
the spawned executions (`asyncio.create_task(self._execute_task ...)`). -/
def process_lane (s : HubState) (lane : Lane) : HubState × List Task :=
  let r := process_lane_go (s.active_tasks.get lane) (LANE_LIMITS lane)
      (s.lanes.get lane) []
  ({ s with active_tasks := s.active_tasks.set lane r.1
            lanes := s.lanes.set lane r.2.1 }, r.2.2)

/-! ## Task execution (TradingHub._execute_task).

The body of `_execute_task` runs the tool-use loop under a `try`; any
exception raised by the body is captured.  The body's outcome (the loop's
result dictionary, or the raised exception) is passed in explicitly,
since the engine call is external. -/

/-- Session resolution at the top of `_execute_task`: use the task's
session (creating it if missing), or create a temporary
`temp_<task id>` session. -/
def resolve_session_id (s : HubState) (task : Task) (now : ℚ) : String × HubState :=
  if opt_str_truthy task.session_id then
    let sid := task.session_id.getD ""
    if alist_contains sid s.sessions then (sid, s)
    else (sid, create_session s sid "task" now)
  else
    let sid := "temp_" ++ task.id
    (sid, create_session s sid "task" now)

/-- Append the user prompt to the resolved session
(`session.add_message("user", task.prompt)`). -/
def add_user_message (s : HubState) (sid prompt : String) (now : ℚ) : HubState :=
  match alist_lookup sid s.sessions with
  | some session =>
    { s with sessions := alist_insert sid (session.add_message "user" prompt now) s.sessions }
  | none => s

/-- Source `TradingHub._execute_task`: resolve the session, append the prompt,
then either store the loop's result dictionary and bump
`tasks_completed`, or — when the body raised — store the captured
exception and bump `tasks_failed`; in both cases (the `finally` block)
discard the task id from the lane's active set. -/
def execute_task (s : HubState) (task : Task) (lane : Lane)
    (outcome : Except String LoopResult) (now : ℚ) : HubState :=
  let rs := resolve_session_id s task now
  let s1 := add_user_message rs.2 rs.1 task.prompt now
  let s2 :=
    match outcome with
    | .ok r =>
      { s1 with task_results := alist_insert task.id (.ok r) s1.task_results
                task_result_timestamps := alist_insert task.id now s1.task_result_timestamps
                stats := { s1.stats with tasks_completed := s1.stats.tasks_completed + 1 } }
    | .error e =>
      { s1 with task_results := alist_insert task.id (.exn e) s1.task_results
                task_result_timestamps := alist_insert task.id now s1.task_result_timestamps
                stats := { s1.stats with tasks_failed := s1.stats.tasks_failed + 1 } }
  { s2 with
      active_tasks := s2.active_tasks.set lane (set_discard task.id (s2.active_tasks.get lane)) }

/-! ## Result wait (TradingHub.enqueue_and_wait).

After enqueueing, the caller polls `task_results` every 100ms.  The
definition below is one observation step of that loop: when a result for
the id is present it is popped from the store, a captured exception is
re-raised, and a plain result is returned; when absent the loop keeps
polling (`none`). -/

/-- The result handling at the bottom of the wait loop: a captured
exception is re-raised (`raise result`), a plain result is returned. -/
def reraise (v : TaskResultVal) : Except String LoopResult :=
  match v with
  | .exn e => .error e
  | .ok r => .ok r

/-- One observation step of the wait loop of `enqueue_and_wait`. -/
def await_result (s : HubState) (task_id : String) :
    Option (Except String LoopResult) × HubState :=
  match alist_lookup task_id s.task_results with
  | none => (none, s)
  | some v =>
    let s' := { s with task_results := alist_remove task_id s.task_results }
    match v with
    | .exn e => (some (.error e), s')
    | .ok r => (some (.ok r), s')

/-! ## Reachable hub states.

The dispatch loop interleaves enqueues, per-lane dispatch scans and task
completions; the step relation below over-approximates every such
interleaving (completions may fire for arbitrary tasks, which only ever
shrinks active sets). -/

/-- One scheduler step: an `enqueue` call, a `_process_lane` scan of one
lane, or the completion of one `_execute_task` execution. -/
inductive HubStep : HubState → HubState → Prop where
  | enqueue (s : HubState) (t : Task) (now : ℚ) : HubStep s (enqueue s t now)
  | dispatch (s : HubState) (lane : Lane) : HubStep s (process_lane s lane).1
  | finish (s : HubState) (t : Task) (lane : Lane)
      (outcome : Except String LoopResult) (now : ℚ) :
      HubStep s (execute_task s t lane outcome now)

/-- Hub states reachable from the freshly constructed hub. -/
inductive HubReachable : HubState → Prop where
  | init : HubReachable init_hub
  | step {s s' : HubState} : HubReachable s → HubStep s s' → HubReachable s'

/-! ## Approval manager (agents/core/approvals.py).

Money amounts and timestamps are rationals standing for Python floats.
The `asyncio.Event` waiters are modelled by the list of trade ids that
hold a waiter; the interleaving of an external `approve`/`reject` call
with the blocked `request_approval` caller is supplied as an explicit
`Decision` parameter. -/

/-- Source `class ApprovalStatus(Enum)`. -/
inductive ApprovalStatus where
  | PENDING
  | APPROVED
  | REJECTED
  | TIMEOUT
deriving DecidableEq, Repr

/-- A value stored in a `trade_data` map: a number, or a string (which
`request_approval` will try to coerce with `float(...)`). -/
inductive TDVal where
  | num (q : ℚ)
  | str (s : String)
deriving DecidableEq, Repr

/-- Numeric value of a run of decimal digits. -/
def nat_of_digits (l : List Char) : Nat :=
  l.foldl (fun acc c => 10 * acc + (c.toNat - '0'.toNat)) 0

/-- Modelled from the spec: Python's built-in `float(str)` coercion used
by `request_approval` (the builtin itself is not part of the repository).
Plain optionally-signed decimal forms parse to their exact rational
value; anything else fails. -/
def parse_float (s : String) : Option ℚ :=
  let cs := s.data
  let sign_cs : ℚ × List Char :=
    match cs with
    | '-' :: rest => (-1, rest)
    | '+' :: rest => (1, rest)
    | _ => (1, cs)
  let int_part := sign_cs.2.takeWhile Char.isDigit
  let rest := sign_cs.2.dropWhile Char.isDigit
  match rest with
  | [] =>
    if int_part.isEmpty then none
    else some (sign_cs.1 * (nat_of_digits int_part : ℚ))
  | '.' :: frac_raw =>
    let frac := frac_raw.takeWhile Char.isDigit
    let rest2 := frac_raw.dropWhile Char.isDigit
    if rest2.isEmpty && !(int_part.isEmpty && frac.isEmpty) then
      some (sign_cs.1 *
        ((nat_of_digits int_part : ℚ) + (nat_of_digits frac : ℚ) / (10 : ℚ) ^ frac.length))
    else none
  | _ => none

/-- The size coercion at the top of `request_approval`:
`trade_data.get("size", 0)`, then `float(...)` on a string with fallback
to `0` when parsing raises. -/
def coerce_size (v : Option TDVal) : ℚ :=
  match v with
  | none => 0
  | some (.num q) => q
  | some (.str s) => (parse_float s).getD 0

/-- Source `@dataclass ApprovalRequest`. -/
structure ApprovalRequest where
  trade_id : String
  trade_data : List (String × TDVal)
  created_at : ℚ
  status : ApprovalStatus
  approved_at : Option ℚ
  rejected_at : Option ℚ
  timeout : Nat
deriving DecidableEq, Repr

/-- The `self.stats` counters of the approval manager. -/
structure ApprovalStats where
  total_requests : Nat
  auto_approved : Nat
  manually_approved : Nat
  rejected : Nat
  timeout : Nat
deriving DecidableEq, Repr

/-- Mutable state of an `ApprovalManager` instance.  `cleanups` records
the delayed `_cleanup_after_delay` tasks spawned by `approve`/`reject`
as (trade id, due time) pairs. -/
structure ApprovalState where
  auto_approve_threshold : ℚ
  default_timeout : Nat
  pending : List (String × ApprovalRequest)
  waiters : List String
  cleanups : List (String × ℚ)
  stats : ApprovalStats
deriving DecidableEq, Repr

/-- Source `ApprovalManager.__init__` with its default arguments
(threshold 0.05, timeout 300s). -/
def init_approvals : ApprovalState :=
  { auto_approve_threshold := mkRat 5 100
    default_timeout := 300
    pending := []
    waiters := []
    cleanups := []
    stats := ⟨0, 0, 0, 0, 0⟩ }

/-- Source `ApprovalManager._cleanup`: drop the request and its waiter. -/
def cleanup (s : ApprovalState) (trade_id : String) : ApprovalState :=
  { s with pending := alist_remove trade_id s.pending
           waiters := s.waiters.filter (fun x => x ≠ trade_id) }

/-- Source `ApprovalManager.approve`: returns `False` on an unknown or already-decided
id; otherwise set `APPROVED` with its timestamp, wake the waiter, and
schedule cleanup 5 seconds later. -/
def approve (s : ApprovalState) (trade_id : String) (now : ℚ) : Bool × ApprovalState :=
  match alist_lookup trade_id s.pending with
  | none => (false, s)
  | some req =>
    if req.status ≠ .PENDING then (false, s)
    else
      let req' := { req with status := .APPROVED, approved_at := some now }
      (true, { s with pending := alist_insert trade_id req' s.pending
                      cleanups := s.cleanups ++ [(trade_id, now + 5)] })

/-- Source `ApprovalManager.reject`: returns `False` on an unknown or already-decided
id; otherwise set `REJECTED` with its timestamp, wake the waiter, and
schedule cleanup 5 seconds later. -/
def reject (s : ApprovalState) (trade_id : String) (now : ℚ) : Bool × ApprovalState :=
  match alist_lookup trade_id s.pending with
  | none => (false, s)
  | some req =>
    if req.status ≠ .PENDING then (false, s)
    else
      let req' := { req with status := .REJECTED, rejected_at := some now }
      (true, { s with pending := alist_insert trade_id req' s.pending
                      cleanups := s.cleanups ++ [(trade_id, now + 5)] })

/-- The `asyncio.TimeoutError` branch of `_wait_for_approval`: mark the
request `TIMEOUT` and stamp `rejected_at`. -/
def mark_timed_out (s : ApprovalState) (trade_id : String) (now : ℚ) : ApprovalState :=
  match alist_lookup trade_id s.pending with
  | none => s
  | some req =>
    { s with pending :=
        alist_insert trade_id { req with status := .TIMEOUT, rejected_at := some now } s.pending }

/-- What the environment does while `request_approval` is blocked:
`approve`/`reject` arrives at some time before the deadline, or nothing
happens and `asyncio.wait_for` raises `TimeoutError`. -/
inductive Decision where
  | approve_at (t : ℚ)
  | reject_at (t : ℚ)
  | no_action
deriving DecidableEq, Repr

/-- Whether the waiter event fired before the deadline. -/
inductive WaitEvent where
  | fired
  | timed_out
deriving DecidableEq, Repr

/-- Source `ApprovalManager._wait_for_approval`: no waiter means `False`; a
fired event reads back the decided status and bumps the matching
counter; on `TimeoutError` mark the request `TIMEOUT`, bump the
`timeout` counter, clean up immediately and return `False`. -/
def wait_for_approval (s : ApprovalState) (trade_id : String)
    (ev : WaitEvent) (now : ℚ) : Bool × ApprovalState :=
  if trade_id ∉ s.waiters then (false, s)
  else
    match ev with
    | .fired =>
      match alist_lookup trade_id s.pending with
      | some req =>
        if req.status = .APPROVED then
          (true, { s with stats :=
            { s.stats with manually_approved := s.stats.manually_approved + 1 } })
        else if req.status = .REJECTED then
          (false, { s with stats := { s.stats with rejected := s.stats.rejected + 1 } })
        else (false, s)
      | none => (false, s)
    | .timed_out =>
      let s1 := mark_timed_out s trade_id now
      let s2 := { s1 with stats := { s1.stats with timeout := s1.stats.timeout + 1 } }
      (false, cleanup s2 trade_id)

/-- The `timeout = timeout or self.default_timeout` resolution at the top
of `request_approval`: the Python `or` makes an explicit `0` (falsy) fall
back to the default as well. -/
def resolve_timeout (s : ApprovalState) (timeout_arg : Option Nat) : Nat :=
  match timeout_arg with
  | some t => if t = 0 then s.default_timeout else t
  | none => s.default_timeout

/-- The `ApprovalRequest(trade_id=..., trade_data=..., timeout=...)`
construction of `request_approval`. -/
def new_request (trade_id : String) (trade_data : List (String × TDVal))
    (now : ℚ) (timeout : Nat) : ApprovalRequest :=
  { trade_id := trade_id, trade_data := trade_data, created_at := now
    status := .PENDING, approved_at := none, rejected_at := none, timeout := timeout }

/-- The state of the manager right after `request_approval` has stored
the pending request and its waiter and bumped `total_requests`. -/
def pending_inserted (s : ApprovalState) (trade_id : String)
    (trade_data : List (String × TDVal)) (now : ℚ) (timeout : Nat) : ApprovalState :=
  { s with stats := { s.stats with total_requests := s.stats.total_requests + 1 }
           pending := alist_insert trade_id (new_request trade_id trade_data now timeout) s.pending
           waiters := s.waiters ++ [trade_id] }

/-- Source `ApprovalManager.request_approval`: bump `total_requests`; coerce the
size and auto-approve below the threshold; otherwise store a `PENDING`
request plus its waiter, notify the dashboard (external, best-effort)
and block until decision or deadline. -/
def request_approval (s : ApprovalState) (trade_id : String)
    (trade_data : List (String × TDVal)) (timeout_arg : Option Nat)
    (decision : Decision) (now : ℚ) : Bool × ApprovalState :=
  let timeout := resolve_timeout s timeout_arg
  let s1 := { s with stats := { s.stats with total_requests := s.stats.total_requests + 1 } }
  let trade_size := coerce_size (alist_lookup "size" trade_data)
  if trade_size < s1.auto_approve_threshold then
    (true, { s1 with stats := { s1.stats with auto_approved := s1.stats.auto_approved + 1 } })
  else
    let s2 := pending_inserted s trade_id trade_data now timeout
    match decision with
    | .approve_at t => wait_for_approval (approve s2 trade_id t).2 trade_id .fired (now + timeout)
    | .reject_at t => wait_for_approval (reject s2 trade_id t).2 trade_id .fired (now + timeout)
    | .no_action => wait_for_approval s2 trade_id .timed_out (now + timeout)

/-- Snapshot entry of `get_pending`. -/
structure PendingView where
  trade_id : String
  trade_data : List (String × TDVal)
  created_at : ℚ
  status : ApprovalStatus
  timeout : Nat
  time_remaining : ℚ
deriving DecidableEq, Repr

/-- Source `ApprovalManager.get_pending`: the still-`PENDING` requests with
their computed remaining time. -/
def get_pending (s : ApprovalState) (now : ℚ) : List (String × PendingView) :=
  (s.pending.filter (fun kv => kv.2.status = .PENDING)).map
    (fun kv =>
      (kv.1,
        { trade_id := kv.2.trade_id, trade_data := kv.2.trade_data
          created_at := kv.2.created_at, status := kv.2.status
          timeout := kv.2.timeout
          time_remaining := max 0 ((kv.2.timeout : ℚ) - (now - kv.2.created_at)) }))

/-- Snapshot returned by `ApprovalManager.get_status`. -/
structure StatusView where
  trade_id : String
  status : ApprovalStatus
  created_at : ℚ
  approved_at : Option ℚ
  rejected_at : Option ℚ
  timeout : Nat
deriving DecidableEq, Repr

/-- Source `ApprovalManager.get_status`: point lookup in the `pending` map
(`None` when absent). -/
def get_status (s : ApprovalState) (trade_id : String) : Option StatusView :=
  (alist_lookup trade_id s.pending).map
    (fun req =>
      { trade_id := req.trade_id, status := req.status, created_at := req.created_at
        approved_at := req.approved_at, rejected_at := req.rejected_at
        timeout := req.timeout })

/-- Source `ApprovalManager.get_stats`: the counters plus the live
`pending_count`. -/
def get_stats (s : ApprovalState) : ApprovalStats × Nat :=
  (s.stats, (s.pending.filter (fun kv => kv.2.status = .PENDING)).length)

/-- Execution of the delayed `_cleanup_after_delay` tasks whose delay
has elapsed by `now`. -/
def run_due_cleanups (s : ApprovalState) (now : ℚ) : ApprovalState :=
  let due := s.cleanups.filter (fun c => c.2 ≤ now)
  let rest := s.cleanups.filter (fun c => !(c.2 ≤ now : Bool))
  { (due.foldl (fun st c => cleanup st c.1) s) with cleanups := rest }

/-! ## Helper lemmas. -/

theorem alist_lookup_insert_self {α : Type} (k : String) (v : α) (l : List (String × α)) :
    alist_lookup k (alist_insert k v l) = some v := by
  induction l with
  | nil => simp [alist_insert, alist_lookup]
  | cons hd tl ih =>
    by_cases h : hd.1 = k
    · simp [alist_insert, alist_lookup, h]
    · simp [alist_insert, alist_lookup, h, ih]

theorem alist_mem_keys_insert {α : Type} {x k : String} {v : α} {l : List (String × α)}
    (h : x ∈ (alist_insert k v l).map Prod.fst) : x = k ∨ x ∈ l.map Prod.fst := by
  induction l with
  | nil => simpa [alist_insert] using h
  | cons hd tl ih =>
    by_cases hk : hd.1 = k
    · simp only [alist_insert, hk, if_pos] at h
      rcases (by simpa using h) with h | h
      · exact .inl h
      · exact .inr (by simp [h])
    · simp only [alist_insert, hk, if_neg, not_false_iff, List.map_cons, List.mem_cons] at h
      rcases h with h | h
      · exact .inr (by simp [h])
      · rcases ih h with h | h
        · exact .inl h
        · exact .inr (by simp [h])

theorem alist_keys_nodup_insert {α : Type} {k : String} {v : α} {l : List (String × α)}
    (h : (l.map Prod.fst).Nodup) : ((alist_insert k v l).map Prod.fst).Nodup := by
  induction l with
  | nil => simp [alist_insert]
  | cons hd tl ih =>
    simp only [List.map_cons, List.nodup_cons] at h
    by_cases hk : hd.1 = k
    · simp only [alist_insert, hk, if_pos, List.map_cons, List.nodup_cons]
      exact ⟨by simpa [hk] using h.1, h.2⟩
    · simp only [alist_insert, hk, if_neg, not_false_iff, List.map_cons, List.nodup_cons]
      refine ⟨fun hmem => ?_, ih h.2⟩
      rcases alist_mem_keys_insert hmem with h' | h'
      · exact hk h'
      · exact h.1 h'

theorem alist_lookup_eq_none_of_not_mem {α : Type} {k : String} {l : List (String × α)}
    (h : k ∉ l.map Prod.fst) : alist_lookup k l = none := by
  induction l with
  | nil => simp [alist_lookup]
  | cons hd tl ih =>
    simp only [List.map_cons, List.mem_cons] at h
    push_neg at h
    simp [alist_lookup, Ne.symm h.1, ih h.2]

theorem alist_lookup_remove_self {α : Type} {k : String} {l : List (String × α)}
    (h : (l.map Prod.fst).Nodup) : alist_lookup k (alist_remove k l) = none := by
  induction l with
  | nil => simp [alist_remove, alist_lookup]
  | cons hd tl ih =>
    simp only [List.map_cons, List.nodup_cons] at h
    by_cases hk : hd.1 = k
    · simp only [alist_remove, hk, if_pos]
      exact alist_lookup_eq_none_of_not_mem (hk ▸ h.1)
    · simp [alist_remove, hk, alist_lookup, ih h.2]

theorem set_add_length_le (x : String) (l : List String) :
    (set_add x l).length ≤ l.length + 1 := by
  by_cases h : x ∈ l <;> simp [set_add, h]

theorem set_discard_not_mem (x : String) (l : List String) :
    x ∉ set_discard x l := by
  simp [set_discard]

theorem set_discard_length_le (x : String) (l : List String) :
    (set_discard x l).length ≤ l.length :=
  List.length_filter_le _ l

theorem LaneMap.get_set_self {α : Type} (m : LaneMap α) (lane : Lane) (v : α) :
    (m.set lane v).get lane = v := by
  cases lane <;> rfl

theorem LaneMap.get_set_ne {α : Type} (m : LaneMap α) {lane lane' : Lane} (v : α)
    (h : lane' ≠ lane) : (m.set lane v).get lane' = m.get lane' := by
  cases lane <;> cases lane' <;> first | rfl | exact absurd rfl h

/-! ## Ordering lemmas for the enqueue insertion sort. -/

theorem mem_insert_by_priority {t x : Task} {q : List Task}
    (h : x ∈ insert_by_priority t q) : x = t ∨ x ∈ q := by
  induction q with
  | nil => simpa [insert_by_priority] using h
  | cons hd tl ih =>
    by_cases hp : t.priority > hd.priority
    · simp only [insert_by_priority, hp, if_pos] at h
      rcases (by simpa using h) with h | h | h
      · exact .inl h
      · exact .inr (by simp [h])
      · exact .inr (by simp [h])
    · simp only [insert_by_priority, hp, if_neg, not_false_iff, List.mem_cons] at h
      rcases h with h | h
      · exact .inr (by simp [h])
      · rcases ih h with h | h
        · exact .inl h
        · exact .inr (by simp [h])

theorem insert_by_priority_pairwise {t : Task} {q : List Task}
    (h : q.Pairwise (fun a b => b.priority ≤ a.priority)) :
    (insert_by_priority t q).Pairwise (fun a b => b.priority ≤ a.priority) := by
  induction q with
  | nil => simp [insert_by_priority]
  | cons hd tl ih =>
    rcases List.pairwise_cons.mp h with ⟨hhd, htl⟩
    by_cases hp : t.priority > hd.priority
    · simp only [insert_by_priority, hp, if_pos]
      refine List.pairwise_cons.mpr ⟨?_, h⟩
      intro x hx
      rcases (by simpa using hx) with hx | hx
      · exact le_of_lt (hx ▸ hp)
      · exact le_trans (hhd x hx) (le_of_lt hp)
    · simp only [insert_by_priority, hp, if_neg, not_false_iff]
      refine List.pairwise_cons.mpr ⟨?_, ih htl⟩
      intro x hx
      rcases mem_insert_by_priority hx with hx | hx
      · exact hx ▸ (not_lt.mp hp)
      · exact hhd x hx

theorem insert_by_priority_filter_ne {t : Task} {q : List Task} {p : Int}
    (h : t.priority ≠ p) :
    (insert_by_priority t q).filter (fun x => x.priority == p)
      = q.filter (fun x => x.priority == p) := by
  induction q with
  | nil => simp [insert_by_priority, h]
  | cons hd tl ih =>
    by_cases hp : t.priority > hd.priority
    · simp [insert_by_priority, hp, List.filter_cons, h]
    · simp only [insert_by_priority, hp, if_neg, not_false_iff]
      simp [List.filter_cons, ih]

theorem insert_by_priority_filter_eq {t : Task} {q : List Task}
    (h : q.Pairwise (fun a b => b.priority ≤ a.priority)) :
    (insert_by_priority t q).filter (fun x => x.priority == t.priority)
      = q.filter (fun x => x.priority == t.priority) ++ [t] := by
  induction q with
  | nil => simp [insert_by_priority]
  | cons hd tl ih =>
    rcases List.pairwise_cons.mp h with ⟨hhd, htl⟩
    by_cases hp : t.priority > hd.priority
    · simp only [insert_by_priority, hp, if_pos]
      have hhdne : ¬ (hd.priority == t.priority) = true := by
        simp only [beq_iff_eq]
        exact fun he => absurd (he ▸ hp) (lt_irrefl _)
      have htlnone : tl.filter (fun x => x.priority == t.priority) = [] := by
        refine List.filter_eq_nil_iff.mpr (fun x hx => ?_)
        simp only [beq_iff_eq]
        exact fun he => absurd (lt_of_le_of_lt (he ▸ hhd x hx) hp) (lt_irrefl _)
      simp [List.filter_cons, hhdne, htlnone]
    · simp only [insert_by_priority, hp, if_neg, not_false_iff]
      by_cases hhd' : hd.priority = t.priority
      · simp [List.filter_cons, hhd', ih htl]
      · simp [List.filter_cons, hhd', ih htl]

theorem enqueue_seq_sorted_stable (ts : List Task) (q : List Task)
    (hq : q.Pairwise (fun a b => b.priority ≤ a.priority)) :
    (enqueue_seq ts q).Pairwise (fun a b => b.priority ≤ a.priority) ∧
    ∀ p : Int, (enqueue_seq ts q).filter (fun x => x.priority == p)
      = q.filter (fun x => x.priority == p) ++ ts.filter (fun x => x.priority == p) := by
  induction ts generalizing q with
  | nil => exact ⟨hq, fun p => by simp [enqueue_seq]⟩
  | cons t ts ih =>
    have hq' := insert_by_priority_pairwise (t := t) hq
    rcases ih (insert_by_priority t q) hq' with ⟨hsort, hfilter⟩
    refine ⟨hsort, fun p => ?_⟩
    have hstep : enqueue_seq (t :: ts) q = enqueue_seq ts (insert_by_priority t q) := rfl
    rw [hstep, hfilter p]
    by_cases hp : t.priority = p
    · subst hp
      rw [insert_by_priority_filter_eq hq]
      simp [List.filter_cons, List.append_assoc]
    · rw [insert_by_priority_filter_ne hp]
      simp [List.filter_cons, hp]

/-! ## State-preservation lemmas for the hub transitions. -/

theorem process_lane_go_length_le {limit : Nat} :
    ∀ (queue : List Task) (active : List String) (spawned : List Task),
      active.length ≤ limit →
      (process_lane_go active limit queue spawned).1.length ≤ limit := by
  intro queue
  induction queue with
  | nil => intro active spawned h; simpa [process_lane_go] using h
  | cons task rest ih =>
    intro active spawned h
    by_cases hlt : active.length < limit
    · simp only [process_lane_go, hlt, if_pos]
      exact ih _ _ (le_trans (set_add_length_le _ _) (Nat.succ_le_of_lt hlt))
    · simpa [process_lane_go, hlt] using h

theorem enqueue_active_tasks (s : HubState) (t : Task) (now : ℚ) :
    (enqueue s t now).active_tasks = s.active_tasks := by
  unfold enqueue
  rcases t.session_id with _ | sid
  · rfl
  · dsimp only
    split <;> simp [create_session]

theorem enqueue_lanes (s : HubState) (t : Task) (now : ℚ) :
    (enqueue s t now).lanes
      = s.lanes.set t.lane (insert_by_priority t (s.lanes.get t.lane)) := by
  unfold enqueue
  rcases t.session_id with _ | sid
  · rfl
  · dsimp only
    split <;> simp [create_session]

theorem resolve_session_id_parts (s : HubState) (t : Task) (now : ℚ) :
    (resolve_session_id s t now).2.active_tasks = s.active_tasks ∧
    (resolve_session_id s t now).2.task_results = s.task_results ∧
    (resolve_session_id s t now).2.task_result_timestamps = s.task_result_timestamps ∧
    (resolve_session_id s t now).2.stats.tasks_completed = s.stats.tasks_completed ∧
    (resolve_session_id s t now).2.stats.tasks_failed = s.stats.tasks_failed := by
  unfold resolve_session_id
  by_cases h1 : opt_str_truthy t.session_id = true
  · simp only [h1, if_true]
    by_cases h2 : alist_contains (t.session_id.getD "") s.sessions = true
    · simp [h2]
    · simp [h2, create_session]
  · simp [h1, create_session]

theorem add_user_message_parts (s : HubState) (sid p : String) (now : ℚ) :
    (add_user_message s sid p now).active_tasks = s.active_tasks ∧
    (add_user_message s sid p now).task_results = s.task_results ∧
    (add_user_message s sid p now).task_result_timestamps = s.task_result_timestamps ∧
    (add_user_message s sid p now).stats.tasks_completed = s.stats.tasks_completed ∧
    (add_user_message s sid p now).stats.tasks_failed = s.stats.tasks_failed := by
  unfold add_user_message
  rcases h : alist_lookup sid s.sessions with _ | sess <;> simp [h]

theorem execute_task_active (s : HubState) (t : Task) (lane : Lane)
    (outcome : Except String LoopResult) (now : ℚ) :
    (execute_task s t lane outcome now).active_tasks
      = s.active_tasks.set lane (set_discard t.id (s.active_tasks.get lane)) := by
  unfold execute_task
  have h1 := (resolve_session_id_parts s t now).1
  have h2 := (add_user_message_parts (resolve_session_id s t now).2
    (resolve_session_id s t now).1 t.prompt now).1
  cases outcome <;> dsimp only <;> rw [h2, h1]

theorem execute_task_error_parts (s : HubState) (t : Task) (lane : Lane)
    (e : String) (now : ℚ) :
    (execute_task s t lane (.error e) now).task_results
      = alist_insert t.id (.exn e) s.task_results ∧
    (execute_task s t lane (.error e) now).task_result_timestamps
      = alist_insert t.id now s.task_result_timestamps ∧
    (execute_task s t lane (.error e) now).stats.tasks_failed
      = s.stats.tasks_failed + 1 ∧
    (execute_task s t lane (.error e) now).stats.tasks_completed
      = s.stats.tasks_completed := by
  unfold execute_task
  obtain ⟨-, hr1, ht1, hc1, hf1⟩ := resolve_session_id_parts s t now
  obtain ⟨-, hr2, ht2, hc2, hf2⟩ := add_user_message_parts (resolve_session_id s t now).2
    (resolve_session_id s t now).1 t.prompt now
  dsimp only
  rw [hr2, hr1, ht2, ht1, hf2, hf1, hc2, hc1]
  exact ⟨rfl, rfl, rfl, rfl⟩

theorem execute_task_ok_parts (s : HubState) (t : Task) (lane : Lane)
    (r : LoopResult) (now : ℚ) :
    (execute_task s t lane (.ok r) now).task_results
      = alist_insert t.id (.ok r) s.task_results ∧
    (execute_task s t lane (.ok r) now).task_result_timestamps
      = alist_insert t.id now s.task_result_timestamps ∧
    (execute_task s t lane (.ok r) now).stats.tasks_completed
      = s.stats.tasks_completed + 1 ∧
    (execute_task s t lane (.ok r) now).stats.tasks_failed
      = s.stats.tasks_failed := by
  unfold execute_task
  obtain ⟨-, hr1, ht1, hc1, hf1⟩ := resolve_session_id_parts s t now
  obtain ⟨-, hr2, ht2, hc2, hf2⟩ := add_user_message_parts (resolve_session_id s t now).2
    (resolve_session_id s t now).1 t.prompt now
  dsimp only
  rw [hr2, hr1, ht2, ht1, hf2, hf1, hc2, hc1]
  exact ⟨rfl, rfl, rfl, rfl⟩

theorem hub_step_preserves_inv {s s' : HubState} (hstep : HubStep s s')
    (h : ∀ lane, (s.active_tasks.get lane).length ≤ LANE_LIMITS lane) :
    ∀ lane, (s'.active_tasks.get lane).length ≤ LANE_LIMITS lane := by
  cases hstep with
  | enqueue t now =>
    intro lane
    rw [enqueue_active_tasks]
    exact h lane
  | dispatch lane' =>
    intro lane
    unfold process_lane
    dsimp only
    by_cases hl : lane = lane'
    · subst hl
      rw [LaneMap.get_set_self]
      exact process_lane_go_length_le _ _ _ (h lane)
    · rw [LaneMap.get_set_ne _ _ hl]
      exact h lane
  | finish t lane' outcome now =>
    intro lane
    rw [execute_task_active]
    by_cases hl : lane = lane'
    · subst hl
      rw [LaneMap.get_set_self]
      exact le_trans (set_discard_length_le _ _) (h lane)
    · rw [LaneMap.get_set_ne _ _ hl]
      exact h lane

theorem hub_reachable_inv {s : HubState} (h : HubReachable s) :
    ∀ lane, (s.active_tasks.get lane).length ≤ LANE_LIMITS lane := by
  induction h with
  | init => intro lane; cases lane <;> simp [init_hub, LaneMap.get, LANE_LIMITS]
  | step _ hstep ih => exact hub_step_preserves_inv hstep ih

/-! ## Concrete artifacts used in witnesses and counterexamples. -/

/-- A research-lane task with a given id and priority and no session. -/
def sample_task (n : String) (p : Int) : Task :=
  { id := n, lane := .RESEARCH, prompt := "p", tools := [], context := [],
    priority := p, session_id := none, created_at := 0 }

/-- An engine that answers every round with a tool invocation, so the
tool-use loop never reaches a final answer. -/
def always_tool_respond : Nat → List Block :=
  fun _ => [Block.tool_use "toolu_01" "web_search" "query"]

/-- Loop lemma: when every consulted engine response carries a tool use,
the loop exhausts its range and returns the max-iterations dictionary. -/
theorem tool_use_loop_go_all_tool (respond : Nat → List Block) (sid : String)
    (m : Nat) : ∀ (fuel i : Nat),
    (∀ j, j < i + fuel → has_tool_use (respond j) = true) →
    tool_use_loop_go respond sid m i fuel
      = { success := false, response := none,
          error := some "Max tool use iterations reached",
          iterations := m, session_id := sid } := by
  intro fuel
  induction fuel with
  | zero => intro i _; rfl
  | succ fuel ih =>
    intro i h
    have hi : has_tool_use (respond i) = true := h i (by omega)
    simp only [tool_use_loop_go, hi, if_pos]
    exact ih (i + 1) (fun j hj => h j (by omega))

/-! ## Claims. -/

/-- C1: at every reachable scheduler state, the number of concurrently
executing tasks of any lane never exceeds the lane's fixed ceiling
(Main=1, Research=3, Monitor=2, Cron=1): dispatch pops a queued task only
while the lane is under its limit, and every enqueue/dispatch/completion
step preserves the bound. -/
theorem C1_lane_concurrency_invariant (s : HubState) (h : HubReachable s) (lane : Lane) :
    (s.active_tasks.get lane).length ≤ LANE_LIMITS lane ∧
    LANE_LIMITS .MAIN = 1 ∧ LANE_LIMITS .RESEARCH = 3 ∧
    LANE_LIMITS .MONITOR = 2 ∧ LANE_LIMITS .CRON = 1 :=
  ⟨hub_reachable_inv h lane, rfl, rfl, rfl, rfl⟩

/-- Witness for C1, at the reachable state obtained by enqueueing one
research task and running one dispatch scan of the research lane. -/
theorem C1_lane_concurrency_invariant_witness :
    HubReachable (process_lane (enqueue init_hub (sample_task "w1" 2) 0) .RESEARCH).1 ∧
    (((process_lane (enqueue init_hub (sample_task "w1" 2) 0) .RESEARCH).1.active_tasks.get
        Lane.RESEARCH).length ≤ LANE_LIMITS .RESEARCH ∧
      LANE_LIMITS .MAIN = 1 ∧ LANE_LIMITS .RESEARCH = 3 ∧
      LANE_LIMITS .MONITOR = 2 ∧ LANE_LIMITS .CRON = 1) :=
  have hr : HubReachable (process_lane (enqueue init_hub (sample_task "w1" 2) 0) .RESEARCH).1 :=
    .step (.step .init (.enqueue init_hub (sample_task "w1" 2) 0))
      (.dispatch (enqueue init_hub (sample_task "w1" 2) 0) .RESEARCH)
  ⟨hr, C1_lane_concurrency_invariant _ hr .RESEARCH⟩

/-- C2: repeated enqueueing into one lane queue keeps the queue sorted by
non-increasing priority; among equal priorities insertion order is
preserved (the queue filtered to any one priority equals the enqueue
sequence filtered to that priority); and enqueueing priorities 1, 5, 3
yields dequeue (head-pop) order 5, 3, 1, also through an actual dispatch
scan of the research lane. -/
theorem C2_priority_ordering_stable (ts : List Task) :
    (enqueue_seq ts []).Pairwise (fun a b => b.priority ≤ a.priority) ∧
    (∀ p : Int, (enqueue_seq ts []).filter (fun x => x.priority == p)
        = ts.filter (fun x => x.priority == p)) ∧
    (enqueue_seq [sample_task "a" 1, sample_task "b" 5, sample_task "c" 3] []).map Task.priority
      = [5, 3, 1] ∧
    ((process_lane (enqueue (enqueue (enqueue init_hub (sample_task "a" 1) 0)
        (sample_task "b" 5) 0) (sample_task "c" 3) 0) .RESEARCH).2).map Task.priority
      = [5, 3, 1] := by
  obtain ⟨h1, h2⟩ := enqueue_seq_sorted_stable ts [] List.Pairwise.nil
  exact ⟨h1, fun p => by simpa using h2 p, by decide, by decide⟩

/-- C3: a task execution whose body raises stores the captured exception
as that task's result keyed by the task id (with a timestamp),
increments tasks_failed (not tasks_completed), and — for every outcome,
i.e. also on the failure path — removes the task id from its lane's
active set; the execution step is a total function into scheduler
states, so no single failure escapes into the dispatch loop. -/
theorem C3_exception_captured_as_result (s : HubState) (task : Task) (lane : Lane)
    (e : String) (now : ℚ) :
    alist_lookup task.id (execute_task s task lane (.error e) now).task_results
      = some (.exn e) ∧
    alist_lookup task.id (execute_task s task lane (.error e) now).task_result_timestamps
      = some now ∧
    (execute_task s task lane (.error e) now).stats.tasks_failed
      = s.stats.tasks_failed + 1 ∧
    (execute_task s task lane (.error e) now).stats.tasks_completed
      = s.stats.tasks_completed ∧
    (∀ outcome : Except String LoopResult,
      task.id ∉ (execute_task s task lane outcome now).active_tasks.get lane) := by
  obtain ⟨hres, hts, hf, hc⟩ := execute_task_error_parts s task lane e now
  refine ⟨?_, ?_, hf, hc, ?_⟩
  · rw [hres]; exact alist_lookup_insert_self _ _ _
  · rw [hts]; exact alist_lookup_insert_self _ _ _
  · intro outcome
    rw [execute_task_active, LaneMap.get_set_self]
    exact set_discard_not_mem _ _

/-- C4 counterexample: with an engine that always returns a tool use,
the loop exhausts its 10 iterations and returns the max-iterations
failure dictionary, but `_execute_task` stores it through its success
path: `tasks_completed` is incremented and `tasks_failed` stays 0 —
refuting the claim that `tasks_failed`, not `tasks_completed`, is
incremented for that task. -/
theorem C4_counterexample :
    (claude_tool_use_loop always_tool_respond "sess" 10).success = false ∧
    (claude_tool_use_loop always_tool_respond "sess" 10).error
      = some "Max tool use iterations reached" ∧
    (execute_task init_hub (sample_task "t_c4" 0) .RESEARCH
        (.ok (claude_tool_use_loop always_tool_respond "sess" 10)) 0).stats.tasks_completed
      = 1 ∧
    (execute_task init_hub (sample_task "t_c4" 0) .RESEARCH
        (.ok (claude_tool_use_loop always_tool_respond "sess" 10)) 0).stats.tasks_failed
      = 0 := by
  decide

/-- C4 (amended): if the tool-use loop exhausts max_iterations with every
response carrying a tool invocation, it returns a failure dictionary
(success=False, error "Max tool use iterations reached") that still
reports the iteration count and session id; the dictionary is returned
normally (no exception), so `_execute_task` stores it as the task's
result and increments `tasks_completed` — not `tasks_failed`. -/
theorem C4_max_iterations_result (respond : Nat → List Block) (sid : String)
    (max_iterations : Nat) (s : HubState) (task : Task) (lane : Lane) (now : ℚ)
    (h : ((List.range max_iterations).all fun i => has_tool_use (respond i)) = true) :
    claude_tool_use_loop respond sid max_iterations
      = { success := false, response := none,
          error := some "Max tool use iterations reached",
          iterations := max_iterations, session_id := sid } ∧
    (execute_task s task lane (.ok (claude_tool_use_loop respond sid max_iterations))
        now).stats.tasks_completed = s.stats.tasks_completed + 1 ∧
    (execute_task s task lane (.ok (claude_tool_use_loop respond sid max_iterations))
        now).stats.tasks_failed = s.stats.tasks_failed ∧
    alist_lookup task.id (execute_task s task lane
        (.ok (claude_tool_use_loop respond sid max_iterations)) now).task_results
      = some (.ok (claude_tool_use_loop respond sid max_iterations)) := by
  have hall : ∀ j, j < 0 + max_iterations → has_tool_use (respond j) = true := by
    intro j hj
    have := List.all_eq_true.mp h j (List.mem_range.mpr (by omega))
    simpa using this
  have hloop := tool_use_loop_go_all_tool respond sid max_iterations max_iterations 0 hall
  obtain ⟨hres, -, hc, hf⟩ := execute_task_ok_parts s task lane
    (claude_tool_use_loop respond sid max_iterations) now
  refine ⟨hloop, hc, hf, ?_⟩
  rw [hres]
  exact alist_lookup_insert_self _ _ _

/-- Witness for the amended C4 at a concrete engine and hub state. -/
theorem C4_max_iterations_result_witness :
    ((List.range 10).all fun i => has_tool_use (always_tool_respond i)) = true ∧
    (claude_tool_use_loop always_tool_respond "sess2" 10
      = { success := false, response := none,
          error := some "Max tool use iterations reached",
          iterations := 10, session_id := "sess2" } ∧
    (execute_task init_hub (sample_task "t_c4w" 0) .MAIN
        (.ok (claude_tool_use_loop always_tool_respond "sess2" 10))
        0).stats.tasks_completed = init_hub.stats.tasks_completed + 1 ∧
    (execute_task init_hub (sample_task "t_c4w" 0) .MAIN
        (.ok (claude_tool_use_loop always_tool_respond "sess2" 10))
        0).stats.tasks_failed = init_hub.stats.tasks_failed ∧
    alist_lookup (sample_task "t_c4w" 0).id (execute_task init_hub (sample_task "t_c4w" 0) .MAIN
        (.ok (claude_tool_use_loop always_tool_respond "sess2" 10)) 0).task_results
      = some (.ok (claude_tool_use_loop always_tool_respond "sess2" 10))) :=
  ⟨by decide, C4_max_iterations_result always_tool_respond "sess2" 10 init_hub
    (sample_task "t_c4w" 0) .MAIN 0 (by decide)⟩

/-! ## Approval-manager lemmas. -/

theorem cleanup_stats (s : ApprovalState) (tid : String) :
    (cleanup s tid).stats = s.stats := rfl

theorem mark_timed_out_stats (s : ApprovalState) (tid : String) (t : ℚ) :
    (mark_timed_out s tid t).stats = s.stats := by
  unfold mark_timed_out
  rcases h : alist_lookup tid s.pending with _ | req <;> simp [h]

theorem mark_timed_out_of_lookup {s : ApprovalState} {tid : String} {req : ApprovalRequest}
    (h : alist_lookup tid s.pending = some req) (t : ℚ) :
    alist_lookup tid (mark_timed_out s tid t).pending
      = some { req with status := .TIMEOUT, rejected_at := some t } := by
  unfold mark_timed_out
  rw [h]
  exact alist_lookup_insert_self _ _ _

theorem pending_inserted_lookup (s : ApprovalState) (tid : String)
    (td : List (String × TDVal)) (now : ℚ) (T : Nat) :
    alist_lookup tid (pending_inserted s tid td now T).pending
      = some (new_request tid td now T) :=
  alist_lookup_insert_self _ _ _

/-- C5: a RequestApproval call whose trade_data carries a numeric size
strictly below the auto-approve threshold returns true immediately,
increments auto_approved (and total_requests), creates no request
object (pending is untouched), and leaves GetPending unchanged, so no
Pending entry for the trade id ever becomes visible. -/
theorem C5_auto_approval (s : ApprovalState) (trade_id : String)
    (trade_data : List (String × TDVal)) (timeout_arg : Option Nat)
    (decision : Decision) (now t q : ℚ)
    (hsize : alist_lookup "size" trade_data = some (.num q))
    (hlt : q < s.auto_approve_threshold) :
    (request_approval s trade_id trade_data timeout_arg decision now).1 = true ∧
    (request_approval s trade_id trade_data timeout_arg decision now).2.stats.auto_approved
      = s.stats.auto_approved + 1 ∧
    (request_approval s trade_id trade_data timeout_arg decision now).2.stats.total_requests
      = s.stats.total_requests + 1 ∧
    (request_approval s trade_id trade_data timeout_arg decision now).2.pending = s.pending ∧
    get_pending (request_approval s trade_id trade_data timeout_arg decision now).2 t
      = get_pending s t := by
  have hcond : coerce_size (alist_lookup "size" trade_data) < s.auto_approve_threshold := by
    rw [hsize]
    simpa [coerce_size] using hlt
  unfold request_approval
  dsimp only
  rw [if_pos hcond]
  exact ⟨rfl, rfl, rfl, rfl, rfl⟩

/-- Witness for C5 at the spec's concrete scenario (size 0.01 against the
default threshold 0.05). -/
theorem C5_auto_approval_witness :
    alist_lookup "size" [("size", TDVal.num (mkRat 1 100))] = some (.num (mkRat 1 100)) ∧
    mkRat 1 100 < init_approvals.auto_approve_threshold ∧
    ((request_approval init_approvals "t1" [("size", TDVal.num (mkRat 1 100))]
        (some 10) .no_action 0).1 = true ∧
      (request_approval init_approvals "t1" [("size", TDVal.num (mkRat 1 100))]
        (some 10) .no_action 0).2.stats.auto_approved
        = init_approvals.stats.auto_approved + 1 ∧
      (request_approval init_approvals "t1" [("size", TDVal.num (mkRat 1 100))]
        (some 10) .no_action 0).2.stats.total_requests
        = init_approvals.stats.total_requests + 1 ∧
      (request_approval init_approvals "t1" [("size", TDVal.num (mkRat 1 100))]
        (some 10) .no_action 0).2.pending = init_approvals.pending ∧
      get_pending (request_approval init_approvals "t1" [("size", TDVal.num (mkRat 1 100))]
        (some 10) .no_action 0).2 0 = get_pending init_approvals 0) :=
  ⟨by decide, by decide,
    C5_auto_approval init_approvals "t1" [("size", TDVal.num (mkRat 1 100))]
      (some 10) .no_action 0 0 (mkRat 1 100) (by decide) (by decide)⟩

/-- C9: a RequestApproval call whose trade_data has no size key, or
whose size is a string that does not parse as a number, treats the size
as 0; with any positive threshold the call auto-approves: returns true,
bumps auto_approved and total_requests, creates no request and leaves
GetPending unchanged — no human review happens. -/
theorem C9_defaulted_size_auto_approves (s : ApprovalState) (trade_id : String)
    (trade_data : List (String × TDVal)) (timeout_arg : Option Nat)
    (decision : Decision) (now t : ℚ) (str : String)
    (hsize : alist_lookup "size" trade_data = none ∨
      (alist_lookup "size" trade_data = some (.str str) ∧ parse_float str = none))
    (hpos : 0 < s.auto_approve_threshold) :
    (request_approval s trade_id trade_data timeout_arg decision now).1 = true ∧
    (request_approval s trade_id trade_data timeout_arg decision now).2.stats.auto_approved
      = s.stats.auto_approved + 1 ∧
    (request_approval s trade_id trade_data timeout_arg decision now).2.stats.total_requests
      = s.stats.total_requests + 1 ∧
    (request_approval s trade_id trade_data timeout_arg decision now).2.pending = s.pending ∧
    get_pending (request_approval s trade_id trade_data timeout_arg decision now).2 t
      = get_pending s t := by
  have hzero : coerce_size (alist_lookup "size" trade_data) = 0 := by
    rcases hsize with h | ⟨h, hp⟩
    · simp [h, coerce_size]
    · simp [h, coerce_size, hp]
  have hcond : coerce_size (alist_lookup "size" trade_data) < s.auto_approve_threshold := by
    rw [hzero]; exact hpos
  unfold request_approval
  dsimp only
  rw [if_pos hcond]
  exact ⟨rfl, rfl, rfl, rfl, rfl⟩

/-- Witness for C9 with a non-numeric size string. -/
theorem C9_defaulted_size_auto_approves_witness :
    (alist_lookup "size" [("size", TDVal.str "not_a_number")] = none ∨
      (alist_lookup "size" [("size", TDVal.str "not_a_number")]
          = some (.str "not_a_number") ∧
        parse_float "not_a_number" = none)) ∧
    (0 : ℚ) < init_approvals.auto_approve_threshold ∧
    ((request_approval init_approvals "t9" [("size", TDVal.str "not_a_number")]
        none .no_action 0).1 = true ∧
      (request_approval init_approvals "t9" [("size", TDVal.str "not_a_number")]
        none .no_action 0).2.stats.auto_approved
        = init_approvals.stats.auto_approved + 1 ∧
      (request_approval init_approvals "t9" [("size", TDVal.str "not_a_number")]
        none .no_action 0).2.stats.total_requests
        = init_approvals.stats.total_requests + 1 ∧
      (request_approval init_approvals "t9" [("size", TDVal.str "not_a_number")]
        none .no_action 0).2.pending = init_approvals.pending ∧
      get_pending (request_approval init_approvals "t9" [("size", TDVal.str "not_a_number")]
        none .no_action 0).2 0 = get_pending init_approvals 0) :=
  ⟨Or.inr ⟨by decide, by decide⟩, by decide,
    C9_defaulted_size_auto_approves init_approvals "t9"
      [("size", TDVal.str "not_a_number")] none .no_action 0 0 "not_a_number"
      (Or.inr ⟨by decide, by decide⟩) (by decide)⟩

/-- C6: a RequestApproval call at or above the threshold with no
Approve/Reject before the deadline returns false, passes through the
TIMEOUT transition (the request's status field is set to TimedOut with a
rejected_at stamp), and increments the timeout statistic exactly once. -/
theorem C6_timeout_returns_false (s : ApprovalState) (trade_id : String)
    (trade_data : List (String × TDVal)) (timeout_arg : Option Nat) (now : ℚ)
    (hsize : ¬ coerce_size (alist_lookup "size" trade_data) < s.auto_approve_threshold) :
    (request_approval s trade_id trade_data timeout_arg .no_action now).1 = false ∧
    (request_approval s trade_id trade_data timeout_arg .no_action now).2.stats.timeout
      = s.stats.timeout + 1 ∧
    alist_lookup trade_id
        (mark_timed_out
          (pending_inserted s trade_id trade_data now (resolve_timeout s timeout_arg))
          trade_id (now + (resolve_timeout s timeout_arg : Nat))).pending
      = some { new_request trade_id trade_data now (resolve_timeout s timeout_arg) with
               status := .TIMEOUT
               rejected_at := some (now + (resolve_timeout s timeout_arg : Nat)) } := by
  unfold request_approval
  dsimp only
  rw [if_neg hsize]
  unfold wait_for_approval
  rw [if_neg (by simp [pending_inserted] : ¬ trade_id ∉
    (pending_inserted s trade_id trade_data now (resolve_timeout s timeout_arg)).waiters)]
  refine ⟨rfl, ?_, mark_timed_out_of_lookup (pending_inserted_lookup _ _ _ _ _) _⟩
  dsimp only
  rw [cleanup_stats]
  dsimp only
  rw [mark_timed_out_stats]
  rfl

/-- Witness for C6 at the spec's concrete scenario (size 0.10,
timeout 1s, no action). -/
theorem C6_timeout_returns_false_witness :
    ¬ coerce_size (alist_lookup "size" [("size", TDVal.num (mkRat 1 10))])
        < init_approvals.auto_approve_threshold ∧
    ((request_approval init_approvals "t2" [("size", TDVal.num (mkRat 1 10))]
        (some 1) .no_action 0).1 = false ∧
      (request_approval init_approvals "t2" [("size", TDVal.num (mkRat 1 10))]
        (some 1) .no_action 0).2.stats.timeout = init_approvals.stats.timeout + 1 ∧
      alist_lookup "t2"
          (mark_timed_out
            (pending_inserted init_approvals "t2" [("size", TDVal.num (mkRat 1 10))] 0
              (resolve_timeout init_approvals (some 1)))
            "t2" (0 + (resolve_timeout init_approvals (some 1) : Nat))).pending
        = some { new_request "t2" [("size", TDVal.num (mkRat 1 10))] 0
                   (resolve_timeout init_approvals (some 1)) with
                 status := .TIMEOUT
                 rejected_at := some (0 + (resolve_timeout init_approvals (some 1) : Nat)) }) :=
  ⟨by decide,
    C6_timeout_returns_false init_approvals "t2" [("size", TDVal.num (mkRat 1 10))]
      (some 1) 0 (by decide)⟩

/-! ## Run lemmas for the non-auto-approval paths. -/

theorem approve_pending {s : ApprovalState} {tid : String} {req : ApprovalRequest}
    (h : alist_lookup tid s.pending = some req) (hst : req.status = .PENDING) (t : ℚ) :
    approve s tid t
      = (true, { s with
          pending := alist_insert tid
            { req with status := .APPROVED, approved_at := some t } s.pending
          cleanups := s.cleanups ++ [(tid, t + 5)] }) := by
  unfold approve
  rw [h]
  simp [hst]

theorem reject_pending {s : ApprovalState} {tid : String} {req : ApprovalRequest}
    (h : alist_lookup tid s.pending = some req) (hst : req.status = .PENDING) (t : ℚ) :
    reject s tid t
      = (true, { s with
          pending := alist_insert tid
            { req with status := .REJECTED, rejected_at := some t } s.pending
          cleanups := s.cleanups ++ [(tid, t + 5)] }) := by
  unfold reject
  rw [h]
  simp [hst]

theorem wait_fired_approved {s : ApprovalState} {tid : String} {req : ApprovalRequest}
    (hw : tid ∈ s.waiters) (h : alist_lookup tid s.pending = some req)
    (hst : req.status = .APPROVED) (t : ℚ) :
    wait_for_approval s tid .fired t
      = (true, { s with stats :=
          { s.stats with manually_approved := s.stats.manually_approved + 1 } }) := by
  unfold wait_for_approval
  rw [if_neg (by simpa using hw)]
  dsimp only
  rw [h]
  simp [hst]

theorem wait_fired_rejected {s : ApprovalState} {tid : String} {req : ApprovalRequest}
    (hw : tid ∈ s.waiters) (h : alist_lookup tid s.pending = some req)
    (hst : req.status = .REJECTED) (t : ℚ) :
    wait_for_approval s tid .fired t
      = (false, { s with stats :=
          { s.stats with rejected := s.stats.rejected + 1 } }) := by
  unfold wait_for_approval
  rw [if_neg (by simpa using hw)]
  dsimp only
  rw [h]
  simp [hst]

theorem mark_timed_out_eq {s : ApprovalState} {tid : String} {req : ApprovalRequest}
    (h : alist_lookup tid s.pending = some req) (t : ℚ) :
    mark_timed_out s tid t
      = { s with
          pending := alist_insert tid
            { req with status := .TIMEOUT, rejected_at := some t } s.pending } := by
  unfold mark_timed_out
  rw [h]

theorem request_approval_approve_run (s : ApprovalState) (tid : String)
    (td : List (String × TDVal)) (arg : Option Nat) (now t : ℚ)
    (hsize : ¬ coerce_size (alist_lookup "size" td) < s.auto_approve_threshold) :
    request_approval s tid td arg (.approve_at t) now
      = (true,
          { pending_inserted s tid td now (resolve_timeout s arg) with
            pending := alist_insert tid
              { new_request tid td now (resolve_timeout s arg) with
                status := .APPROVED, approved_at := some t }
              (pending_inserted s tid td now (resolve_timeout s arg)).pending
            cleanups := (pending_inserted s tid td now (resolve_timeout s arg)).cleanups
              ++ [(tid, t + 5)]
            stats := { (pending_inserted s tid td now (resolve_timeout s arg)).stats with
              manually_approved :=
                (pending_inserted s tid td now (resolve_timeout s arg)).stats.manually_approved
                  + 1 } }) := by
  unfold request_approval
  dsimp only
  rw [if_neg hsize]
  rw [approve_pending (pending_inserted_lookup _ _ _ _ _) rfl]
  dsimp only
  rw [wait_fired_approved (by simp [pending_inserted])
    (alist_lookup_insert_self _ _ _) rfl]

theorem request_approval_reject_run (s : ApprovalState) (tid : String)
    (td : List (String × TDVal)) (arg : Option Nat) (now t : ℚ)
    (hsize : ¬ coerce_size (alist_lookup "size" td) < s.auto_approve_threshold) :
    request_approval s tid td arg (.reject_at t) now
      = (false,
          { pending_inserted s tid td now (resolve_timeout s arg) with
            pending := alist_insert tid
              { new_request tid td now (resolve_timeout s arg) with
                status := .REJECTED, rejected_at := some t }
              (pending_inserted s tid td now (resolve_timeout s arg)).pending
            cleanups := (pending_inserted s tid td now (resolve_timeout s arg)).cleanups
              ++ [(tid, t + 5)]
            stats := { (pending_inserted s tid td now (resolve_timeout s arg)).stats with
              rejected :=
                (pending_inserted s tid td now (resolve_timeout s arg)).stats.rejected + 1 } }) := by
  unfold request_approval
  dsimp only
  rw [if_neg hsize]
  rw [reject_pending (pending_inserted_lookup _ _ _ _ _) rfl]
  dsimp only
  rw [wait_fired_rejected (by simp [pending_inserted])
    (alist_lookup_insert_self _ _ _) rfl]

theorem request_approval_timeout_run (s : ApprovalState) (tid : String)
    (td : List (String × TDVal)) (arg : Option Nat) (now : ℚ)
    (hsize : ¬ coerce_size (alist_lookup "size" td) < s.auto_approve_threshold) :
    request_approval s tid td arg .no_action now
      = (false, cleanup
          { pending_inserted s tid td now (resolve_timeout s arg) with
            pending := alist_insert tid
              { new_request tid td now (resolve_timeout s arg) with
                status := .TIMEOUT
                rejected_at := some (now + (resolve_timeout s arg : Nat)) }
              (pending_inserted s tid td now (resolve_timeout s arg)).pending
            stats := { (pending_inserted s tid td now (resolve_timeout s arg)).stats with
              timeout :=
                (pending_inserted s tid td now (resolve_timeout s arg)).stats.timeout + 1 } }
          tid) := by
  unfold request_approval
  dsimp only
  rw [if_neg hsize]
  unfold wait_for_approval
  rw [if_neg (by simp [pending_inserted] : ¬ tid ∉
    (pending_inserted s tid td now (resolve_timeout s arg)).waiters)]
  dsimp only
  rw [mark_timed_out_eq (pending_inserted_lookup _ _ _ _ _)]

/-- C7 counterexample, at the spec's own concrete scenario (size 0.10,
timeout 1s, no decision): RequestApproval returns false by timeout, but
the bookkeeping is removed immediately (no 5s grace), so a GetStatus
lookup performed right after RequestApproval returns finds nothing —
refuting the claim that every terminal state (including TimedOut) stays
readable for a grace period. -/
theorem C7_counterexample :
    (request_approval init_approvals "t2" [("size", TDVal.num (mkRat 1 10))]
        (some 1) .no_action 0).1 = false ∧
    get_status (request_approval init_approvals "t2" [("size", TDVal.num (mkRat 1 10))]
        (some 1) .no_action 0).2 "t2" = none := by
  decide

/-- C7 (amended): requests that reach Approved or Rejected are retained —
cleanup is only scheduled 5 seconds after the decision, so GetStatus
immediately after (and at any time before the grace deadline) still
returns the terminal status; but a request that reaches TimedOut is
cleaned up immediately inside the timeout handler, so GetStatus right
after RequestApproval returns false finds nothing. -/
theorem C7_terminal_state_retention (s : ApprovalState) (trade_id : String)
    (trade_data : List (String × TDVal)) (timeout_arg : Option Nat) (now t u : ℚ)
    (hsize : ¬ coerce_size (alist_lookup "size" trade_data) < s.auto_approve_threshold)
    (hclean : s.cleanups = [])
    (hkeys : (s.pending.map Prod.fst).Nodup)
    (hu : ¬ t + 5 ≤ u) :
    (get_status (request_approval s trade_id trade_data timeout_arg (.approve_at t) now).2
        trade_id).map StatusView.status = some .APPROVED ∧
    (request_approval s trade_id trade_data timeout_arg (.approve_at t) now).2.cleanups
      = [(trade_id, t + 5)] ∧
    (get_status (run_due_cleanups
        (request_approval s trade_id trade_data timeout_arg (.approve_at t) now).2 u)
        trade_id).map StatusView.status = some .APPROVED ∧
    (get_status (request_approval s trade_id trade_data timeout_arg (.reject_at t) now).2
        trade_id).map StatusView.status = some .REJECTED ∧
    (request_approval s trade_id trade_data timeout_arg (.reject_at t) now).2.cleanups
      = [(trade_id, t + 5)] ∧
    get_status (request_approval s trade_id trade_data timeout_arg .no_action now).2 trade_id
      = none := by
  have hnodup2 : (((pending_inserted s trade_id trade_data now
      (resolve_timeout s timeout_arg)).pending).map Prod.fst).Nodup := by
    simpa [pending_inserted] using alist_keys_nodup_insert hkeys
  refine ⟨?_, ?_, ?_, ?_, ?_, ?_⟩
  · rw [request_approval_approve_run s trade_id trade_data timeout_arg now t hsize]
    simp [get_status, alist_lookup_insert_self]
  · rw [request_approval_approve_run s trade_id trade_data timeout_arg now t hsize]
    simp [pending_inserted, hclean]
  · rw [request_approval_approve_run s trade_id trade_data timeout_arg now t hsize]
    simp [run_due_cleanups, pending_inserted, hclean, hu, get_status,
      alist_lookup_insert_self]
  · rw [request_approval_reject_run s trade_id trade_data timeout_arg now t hsize]
    simp [get_status, alist_lookup_insert_self]
  · rw [request_approval_reject_run s trade_id trade_data timeout_arg now t hsize]
    simp [pending_inserted, hclean]
  · rw [request_approval_timeout_run s trade_id trade_data timeout_arg now hsize]
    have : ((alist_insert trade_id
        { new_request trade_id trade_data now (resolve_timeout s timeout_arg) with
          status := .TIMEOUT
          rejected_at := some (now + (resolve_timeout s timeout_arg : Nat)) }
        (pending_inserted s trade_id trade_data now
          (resolve_timeout s timeout_arg)).pending).map Prod.fst).Nodup :=
      alist_keys_nodup_insert hnodup2
    simp [get_status, cleanup, alist_lookup_remove_self this]

/-- Witness for the amended C7 at a concrete manager state. -/
theorem C7_terminal_state_retention_witness :
    ¬ coerce_size (alist_lookup "size" [("size", TDVal.num (mkRat 1 10))])
        < init_approvals.auto_approve_threshold ∧
    init_approvals.cleanups = [] ∧
    ((init_approvals.pending.map Prod.fst).Nodup) ∧
    ¬ (1 : ℚ) + 5 ≤ 3 ∧
    ((get_status (request_approval init_approvals "t7" [("size", TDVal.num (mkRat 1 10))]
        (some 60) (.approve_at 1) 0).2 "t7").map StatusView.status = some .APPROVED ∧
      (request_approval init_approvals "t7" [("size", TDVal.num (mkRat 1 10))]
        (some 60) (.approve_at 1) 0).2.cleanups = [("t7", (1 : ℚ) + 5)] ∧
      (get_status (run_due_cleanups (request_approval init_approvals "t7"
          [("size", TDVal.num (mkRat 1 10))] (some 60) (.approve_at 1) 0).2 3)
        "t7").map StatusView.status = some .APPROVED ∧
      (get_status (request_approval init_approvals "t7" [("size", TDVal.num (mkRat 1 10))]
        (some 60) (.reject_at 1) 0).2 "t7").map StatusView.status = some .REJECTED ∧
      (request_approval init_approvals "t7" [("size", TDVal.num (mkRat 1 10))]
        (some 60) (.reject_at 1) 0).2.cleanups = [("t7", (1 : ℚ) + 5)] ∧
      get_status (request_approval init_approvals "t7" [("size", TDVal.num (mkRat 1 10))]
        (some 60) .no_action 0).2 "t7" = none) :=
  ⟨by decide, rfl, by decide, by norm_num,
    C7_terminal_state_retention init_approvals "t7" [("size", TDVal.num (mkRat 1 10))]
      (some 60) 0 1 3 (by decide) rfl (by decide) (by norm_num)⟩

/-! ## C8: duplicate task ids. -/

theorem insert_by_priority_filter_length (t : Task) (q : List Task) (p : Task → Bool) :
    ((insert_by_priority t q).filter p).length
      = (q.filter p).length + (if p t then 1 else 0) := by
  induction q with
  | nil => by_cases h : p t <;> simp [insert_by_priority, h]
  | cons hd tl ih =>
    by_cases hp : t.priority > hd.priority
    · simp only [insert_by_priority, hp, if_pos, List.filter_cons]
      by_cases h : p t <;> by_cases hh : p hd <;> simp [h, hh]
    · simp only [insert_by_priority, hp, if_neg, not_false_iff, List.filter_cons]
      by_cases hh : p hd
      · simp [hh, ih]
        omega
      · simp [hh, ih]

/-- C8 counterexample: enqueueing two distinct tasks that share the id
"dup" into the same lane leaves BOTH entries in the lane queue (the
higher-priority one first): nothing is overwritten, the duplicate id
does not replace the earlier task's queue entry. -/
theorem C8_counterexample :
    (((enqueue (enqueue init_hub (sample_task "dup" 1) 0) (sample_task "dup" 5) 0).lanes.get
        Lane.RESEARCH).filter (fun x => x.id == "dup")).length = 2 ∧
    ((enqueue (enqueue init_hub (sample_task "dup" 1) 0) (sample_task "dup" 5) 0).lanes.get
        Lane.RESEARCH).map Task.id = ["dup", "dup"] := by
  decide

/-- C8 (amended): enqueue performs no id-based deduplication — a task
whose id equals an already-queued task's id is inserted as an additional
entry ordered by its own priority, and both entries with that id coexist
in the lane queue (the count of queue entries carrying the id grows by
two after the two enqueues). -/
theorem C8_duplicate_ids_coexist (s : HubState) (t1 t2 : Task) (now1 now2 : ℚ)
    (hid : t1.id = t2.id) (hlane : t1.lane = t2.lane) :
    (((enqueue (enqueue s t1 now1) t2 now2).lanes.get t2.lane).filter
        (fun x => x.id == t2.id)).length
      = ((s.lanes.get t2.lane).filter (fun x => x.id == t2.id)).length + 2 := by
  rw [enqueue_lanes, LaneMap.get_set_self, enqueue_lanes, ← hlane, LaneMap.get_set_self]
  rw [insert_by_priority_filter_length, insert_by_priority_filter_length]
  simp [hid]

/-- Witness for the amended C8 with two concrete same-id tasks. -/
theorem C8_duplicate_ids_coexist_witness :
    (sample_task "dupw" 1).id = (sample_task "dupw" 7).id ∧
    (sample_task "dupw" 1).lane = (sample_task "dupw" 7).lane ∧
    (((enqueue (enqueue init_hub (sample_task "dupw" 1) 0) (sample_task "dupw" 7) 0).lanes.get
        (sample_task "dupw" 7).lane).filter
        (fun x => x.id == (sample_task "dupw" 7).id)).length
      = ((init_hub.lanes.get (sample_task "dupw" 7).lane).filter
          (fun x => x.id == (sample_task "dupw" 7).id)).length + 2 :=
  ⟨rfl, rfl,
    C8_duplicate_ids_coexist init_hub (sample_task "dupw" 1) (sample_task "dupw" 7) 0 0
      rfl rfl⟩

/-! ## C10: enqueue_and_wait result handling. -/

/-- C10: once the wait loop of enqueue_and_wait observes a stored result
for its task id, it pops the result from the store — a second lookup on
the same id finds nothing — and a captured exception is re-raised to
the caller while a plain result is returned as a value. -/
theorem C10_wait_pops_and_reraises (s : HubState) (task_id : String) (v : TaskResultVal)
    (hkeys : (s.task_results.map Prod.fst).Nodup)
    (h : alist_lookup task_id s.task_results = some v) :
    (await_result s task_id).1 = some (reraise v) ∧
    alist_lookup task_id (await_result s task_id).2.task_results = none ∧
    (await_result s task_id).2.task_result_timestamps = s.task_result_timestamps := by
  unfold await_result
  simp only [h]
  cases v <;> exact ⟨rfl, alist_lookup_remove_self hkeys, rfl⟩

/-- Witness for C10 on a hub holding one captured-exception result. -/
theorem C10_wait_pops_and_reraises_witness :
    ((({ init_hub with task_results := [("t10", TaskResultVal.exn "boom")] }
        : HubState).task_results.map Prod.fst).Nodup) ∧
    alist_lookup "t10" ({ init_hub with
        task_results := [("t10", TaskResultVal.exn "boom")] } : HubState).task_results
      = some (TaskResultVal.exn "boom") ∧
    ((await_result { init_hub with task_results := [("t10", TaskResultVal.exn "boom")] }
        "t10").1 = some (Except.error "boom") ∧
      alist_lookup "t10" (await_result { init_hub with
        task_results := [("t10", TaskResultVal.exn "boom")] } "t10").2.task_results = none ∧
      (await_result { init_hub with task_results := [("t10", TaskResultVal.exn "boom")] }
        "t10").2.task_result_timestamps
        = ({ init_hub with task_results := [("t10", TaskResultVal.exn "boom")] }
            : HubState).task_result_timestamps) :=
  ⟨by decide, by decide,
    C10_wait_pops_and_reraises
      { init_hub with task_results := [("t10", TaskResultVal.exn "boom")] }
      "t10" (TaskResultVal.exn "boom") (by decide) (by decide)⟩

end PolyAgent
